import Mathlib

/-!
Verification of the Criminal-Face-Recognition client (frontend, TypeScript) and of
the spec-described backend engine it talks to.

Client numbers travel as JSON numbers; we embed them as rationals (ℚ).
JS strings are embedded as Lean strings (lists of characters).
-/

/- ### JavaScript primitives used by the client code -/

/-- The whitespace class of the JS `String.prototype.trim` (space, tab, LF, CR,
vertical tab, form feed, NBSP, BOM cover everything the client ever feeds it). -/
def isJsSpace (c : Char) : Bool :=
  c == ' ' || c == '\t' || c == '\n' || c == '\r' ||
  c.toNat == 11 || c.toNat == 12 || c.toNat == 160 || c.toNat == 0xFEFF

/-- Removing the trailing whitespace block of a character list. -/
def trimTrailing : List Char → List Char
  | [] => []
  | c :: cs =>
    match trimTrailing cs with
    | [] => if isJsSpace c then [] else [c]
    | t => c :: t

/-- JS `s.trim()`: drop leading and trailing whitespace. -/
def trimChars (l : List Char) : List Char :=
  trimTrailing (l.dropWhile isJsSpace)

/-- JS `s.trim()` on strings. -/
def jsTrim (s : String) : String :=
  String.mk (trimChars s.data)

/-- Decimal digit character for `n % 10`. -/
def digitChar (n : Nat) : Char :=
  Char.ofNat (48 + n % 10)

/-- Fuel-driven decimal rendering of a natural number (most significant digit first). -/
def natCharsAux : Nat → Nat → List Char
  | 0, _ => []
  | fuel + 1, n => if n < 10 then [digitChar n] else natCharsAux fuel (n / 10) ++ [digitChar (n % 10)]

/-- The decimal digit string of a natural number, as JS template literals render it. -/
def natChars (n : Nat) : List Char :=
  natCharsAux (n + 1) n

/-- Decimal rendering as a string. -/
def natStr (n : Nat) : String :=
  String.mk (natChars n)

/-- Decimal rendering of an integer, as JS renders integral numbers. -/
def intStr (i : Int) : String :=
  if i < 0 then "-" ++ natStr (-i).toNat else natStr i.toNat

/-- JS `parseInt` on a non-empty all-digit string. -/
def digitsToNat (l : List Char) : Nat :=
  l.foldl (fun a c => 10 * a + (c.toNat - 48)) 0

/-- JS `Math.round`: floor of `x + 1/2` (ties go toward positive infinity). -/
def jsRound (q : ℚ) : Int :=
  ⌊q + 1 / 2⌋

/-- JS `Number.prototype.toFixed(1)`: sign, then the integer chosen closest to
`|x| * 10` with ties to the larger, split around a decimal point. -/
def jsToFixed1 (q : ℚ) : String :=
  let sign := if q < 0 then "-" else ""
  let x := if q < 0 then -q else q
  let n := (⌊x * 10 + 1 / 2⌋).toNat
  sign ++ natStr (n / 10) ++ "." ++ natStr (n % 10)

/- ### frontend/lib/api.ts -/

/-- The part of a `fetch` response the api helpers inspect: the `ok` flag, the body
as text (`res.text()`), and the body parsed as JSON (`res.json()`, of the payload
type `T` the TypeScript generic promises). -/
structure Response (T : Type) where
  ok : Bool
  text : String
  body : T

/-- `apiGet` of `lib/api.ts`: throw an Error carrying the body text unless `res.ok`,
otherwise resolve with the parsed JSON body. -/
def apiGet {T : Type} (res : Response T) : Except String T :=
  if !res.ok then Except.error res.text else Except.ok res.body

/-- `apiPost` of `lib/api.ts`: same response handling as `apiGet`. -/
def apiPost {T : Type} (res : Response T) : Except String T :=
  if !res.ok then Except.error res.text else Except.ok res.body

/-- `apiMultipart` of `lib/api.ts`: same response handling as `apiGet`. -/
def apiMultipart {T : Type} (res : Response T) : Except String T :=
  if !res.ok then Except.error res.text else Except.ok res.body

/-- `apiDelete` of `lib/api.ts`: same response handling as `apiGet`. -/
def apiDelete {T : Type} (res : Response T) : Except String T :=
  if !res.ok then Except.error res.text else Except.ok res.body

/- ### frontend/components/WebcamBox.tsx and app/recognize/page.tsx: bbox overlay -/

/-- The inference result shape the client receives over the wire
(`type InferResult` in WebcamBox.tsx): `confidence` is a distance or null,
`bbox` is a number array or null/undefined. -/
structure WireResult where
  label : String
  confidence : Option ℚ
  bbox : Option (List ℚ)

/-- The stroke color picked before drawing the overlay rectangle:
amber `#f59e0b` for an Unknown label, green `#10b981` otherwise
(WebcamBox.tsx line 100, recognize/page.tsx). -/
def strokeColor (r : WireResult) : String :=
  if r.label == "Unknown" then "#f59e0b" else "#10b981"

/-- The rectangle the client strokes on the canvas: drawn only under
`result.bbox && result.bbox.length === 4`, destructured as `[x, y, w, h]`
(WebcamBox.tsx lines 102-105, recognize/page.tsx). `none` means nothing is drawn. -/
def overlayRect (r : WireResult) : Option (ℚ × ℚ × ℚ × ℚ) :=
  match r.bbox with
  | some (x :: y :: w :: h :: rest) => if rest.isEmpty then some (x, y, w, h) else none
  | _ => none

/- ### frontend/components/WebcamBox.tsx: capture loop -/

/-- Events of the webcam capture loop: a 500 ms timer tick, and completion of an
in-flight `/api/infer` request (successfully or with an error). -/
inductive LoopEvent where
  | tickEv
  | succEv
  | failEv

/-- State of the capture loop: the `inFlightRef` flag and the number of
`/api/infer` requests sent but not yet completed. -/
structure LoopState where
  inFlight : Bool
  outstanding : Nat

/-- Initial loop state: `inFlightRef` starts false, nothing outstanding. -/
def loopInit : LoopState :=
  ⟨false, 0⟩

/-- Whether a firing tick sends a request: the tick body returns at once when
`inFlightRef.current` is set (WebcamBox.tsx line 82). -/
def tickSends (s : LoopState) : Bool :=
  !s.inFlight

/-- One event of the capture loop. A tick with the flag set does nothing; a tick
with the flag clear sets it and issues one request (line 95). A completion - the
`finally` of lines 108-110, reached from both the success path and the catch -
clears the flag and retires the request. A completion can only really occur while
a request is outstanding; other completions are no-ops. -/
def loopStep (s : LoopState) : LoopEvent → LoopState
  | .tickEv => if s.inFlight then s else ⟨true, s.outstanding + 1⟩
  | .succEv => if s.inFlight then ⟨false, s.outstanding - 1⟩ else s
  | .failEv => if s.inFlight then ⟨false, s.outstanding - 1⟩ else s

/-- The loop state after a sequence of events from the initial state. -/
def loopRun (evs : List LoopEvent) : LoopState :=
  evs.foldl loopStep loopInit

/- ### frontend/components/ResultCard.tsx -/

/-- The result shape ResultCard renders (`type Result` in ResultCard.tsx);
metadata fields do not feed the distance line and are omitted here. -/
structure CardResult where
  label : String
  confidence : Option ℚ
  score : Option ℚ

/-- Clamping of the optional 0..1 score: `Math.max(0, Math.min(1, s))`. -/
def clampScore (q : ℚ) : ℚ :=
  max 0 (min 1 q)

/-- `scorePct` of ResultCard.tsx line 37: for a numeric `score`,
`Math.round(Math.max(0, Math.min(1, score)) * 100)`; `null` otherwise. -/
def scorePct (score : Option ℚ) : Option Int :=
  match score with
  | some q => some (jsRound (clampScore q * 100))
  | none => none

/-- The distance text of the card: `confidence.toFixed(1)` when confidence is
non-null, the dash placeholder otherwise (ResultCard.tsx line 66). -/
def distanceText (confidence : Option ℚ) : String :=
  match confidence with
  | some q => jsToFixed1 q
  | none => "-"

/-- The full distance line of the card (ResultCard.tsx lines 65-68): the distance
text, then the match-score percentage when `scorePct` is non-null. The label does
not occur in this piece of the markup. -/
def distanceLine (r : CardResult) : String :=
  "Distance: " ++ distanceText r.confidence ++
    (match scorePct r.score with
     | some p => " Match score: " ++ intStr p ++ "%"
     | none => "")

/- ### frontend/app/train/page.tsx (the sanitizing enrollment form) -/

/-- `MAX_TEXT` of train/page.tsx. -/
def MAX_TEXT : Nat := 25

/-- `MAX_AGE` of train/page.tsx. -/
def MAX_AGE : Nat := 105

/-- `sanitizeText` of train/page.tsx: `(s ?? "").toString().trim().slice(0, limit)`.
Every call site uses the default limit `MAX_TEXT`. -/
def sanitizeText (s : String) (limit : Nat) : String :=
  String.mk ((trimChars s.data).take limit)

/-- `isPositiveInt` of train/page.tsx on an actual number: finite, strictly
positive and integral. Rationals are always finite. -/
def isPositiveInt (q : ℚ) : Bool :=
  decide (0 < q.num) && q.den == 1

/-- `normalizeAgeInput` of train/page.tsx: keep only digits, cut to 3, parse and
clamp to `[1, MAX_AGE]`; the empty result (JS `""`) is `none`. -/
def normalizeAgeInput (raw : String) : Option Nat :=
  if raw = "" then none
  else
    let digits := (raw.data.filter Char.isDigit).take 3
    if digits = [] then none
    else some (max 1 (min MAX_AGE (digitsToNat digits)))

/-- A value appended to the upload FormData. The source stringifies the clamped
age with `String(...)` at the append site; the numeric payload is kept here. -/
inductive FormVal where
  | fstr (s : String)
  | fnum (q : ℚ)
deriving DecidableEq

/-- The text fields of the enrollment form feeding `uploadAndTrain`
(`age` is the `number | ""` state, `files` the number of selected images). -/
structure TrainForm where
  label : String
  title : String
  caseInfo : String
  sex : String
  age : Option ℚ
  address : String
  notes : String
  files : Nat

/-- Outcome of a submission attempt: an error modal (no request sent), or the
FormData fields of the request actually posted to `/api/train/upload`. -/
inductive UploadOutcome where
  | rejected (msg : String)
  | submitted (fields : List (String × FormVal))
deriving DecidableEq

/-- The age validation error message of train/page.tsx line 87. -/
def ageErrMsg : String :=
  "Age must be a whole number from 1 to 105."

/-- `uploadAndTrain` of train/page.tsx lines 77-108: sanitize the text fields,
reject with the first failing validation, otherwise build the multipart body
exactly as lines 94-102 append it (file blobs omitted; notes only when
non-blank, unlimited but trimmed). -/
def uploadAndTrain (f : TrainForm) : UploadOutcome :=
  let l := sanitizeText f.label MAX_TEXT
  let t := sanitizeText f.title MAX_TEXT
  let c := sanitizeText f.caseInfo MAX_TEXT
  let a := sanitizeText f.address MAX_TEXT
  if l = "" then UploadOutcome.rejected "Label is required."
  else if t = "" then UploadOutcome.rejected "Title is required."
  else if c = "" then UploadOutcome.rejected "Case is required."
  else if jsTrim f.sex = "" then UploadOutcome.rejected "Sex is required."
  else
    match f.age with
    | none => UploadOutcome.rejected ageErrMsg
    | some q =>
      if !isPositiveInt q then UploadOutcome.rejected ageErrMsg
      else if a = "" then UploadOutcome.rejected "Address is required."
      else if f.files = 0 then UploadOutcome.rejected "At least one image is required."
      else
        UploadOutcome.submitted
          ([("label", FormVal.fstr l), ("title", FormVal.fstr t),
            ("case", FormVal.fstr c), ("sex", FormVal.fstr (jsTrim f.sex)),
            ("age", FormVal.fnum (max 1 (min (MAX_AGE : ℚ) q))),
            ("address", FormVal.fstr a)] ++
           (if jsTrim f.notes ≠ "" then [("notes", FormVal.fstr (jsTrim f.notes))] else []))

/-- `handleQuickAddFiles` of train/page.tsx lines 173-211, label handling only:
bail out unless `label.trim()` is non-empty and files were picked, otherwise
append `sanitizeText(label)` as the label field. -/
def quickAddLabelField (label : String) (files : Nat) : Option String :=
  if jsTrim label = "" ∨ files = 0 then none
  else some (sanitizeText label MAX_TEXT)

/-- The success message of train/page.tsx line 105 (also line 197): added count,
a skipped clause only when `skipped > 0`, and the image total. -/
def successMsg (added skipped imagesCount : Nat) : String :=
  "Successfully added " ++ natStr added ++ " training image(s)" ++
    (if skipped > 0 then ", skipped " ++ natStr skipped else "") ++
    ". Total images: " ++ natStr imagesCount

/- ### The backend engine, modelled from the spec -/

/-- The metadata record attached to a recognized identity (spec section 3). -/
structure MetadataRecord where
  title : Option String
  caseInfo : Option String
  sex : Option String
  age : Option ℚ
  address : Option String
  notes : Option String

/-- The result shape of the `Infer` operation (spec section 6). -/
structure InferOutcome where
  label : String
  confidence : Option ℚ
  bbox : Option (List ℚ)
  metadata : Option MetadataRecord

/-- Modelled from the spec: the backend Inference Orchestrator (spec section 4.7)
is not among the sources under src/ (only the browser client is), so the
composition locate, normalize, classify, resolve, threshold is taken from the
contract of section 4.7 verbatim: no face means the Unknown/null/null result;
an id the registry cannot resolve is treated as unknown; a distance within the
threshold yields the resolved label with its metadata; a distance above it
yields Unknown with the raw distance still reported. `located` is the locate
result, `classify` the recognizer on the located region. -/
def infer (threshold : ℚ) (resolve : Nat → Option String)
    (meta : String → Option MetadataRecord)
    (located : Option (List ℚ)) (classify : List ℚ → Nat × ℚ) : InferOutcome :=
  match located with
  | none => ⟨"Unknown", none, none, none⟩
  | some bb =>
    let c := classify bb
    match resolve c.1 with
    | none => ⟨"Unknown", some c.2, some bb, none⟩
    | some lbl =>
      if c.2 ≤ threshold then ⟨lbl, some c.2, some bb, meta lbl⟩
      else ⟨"Unknown", some c.2, some bb, none⟩

/-- Modelled from the spec: the backend Label Registry (spec section 4.4) is not
among the sources under src/; its state is the label-to-id association list in
enrollment order. -/
structure Registry where
  pairs : List (String × Nat)

/-- The ids currently bound to active labels. -/
def Registry.idsOf (r : Registry) : List Nat :=
  r.pairs.map Prod.snd

/-- The id of a label, when registered. -/
def Registry.lookup (r : Registry) (lbl : String) : Option Nat :=
  (r.pairs.find? (fun p => p.1 == lbl)).map Prod.snd

/-- Scan upward from a candidate for a value not in `used`; enough fuel always
finds one. -/
def freeScan : Nat → Nat → List Nat → Nat
  | 0, n, _ => n
  | fuel + 1, n, used => if n ∈ used then freeScan fuel (n + 1) used else n

/-- Modelled from the spec: the allocation policy of section 4.4, the smallest
non-negative integer not currently in use among active labels. -/
def smallestUnused (used : List Nat) : Nat :=
  freeScan (used.length + 1) 0 used

/-- Modelled from the spec: `ensure(label)` of section 4.4 returns the existing
id or allocates the smallest unused one, registering the label. -/
def Registry.ensure (r : Registry) (lbl : String) : Nat × Registry :=
  match r.lookup lbl with
  | some i => (i, r)
  | none =>
    let i := smallestUnused r.idsOf
    (i, ⟨r.pairs ++ [(lbl, i)]⟩)

/-- Modelled from the spec: `remove(label)` of section 4.4 retires the id of a
fully deleted label by dropping the label from the mapping. -/
def Registry.remove (r : Registry) (lbl : String) : Registry :=
  ⟨r.pairs.filter (fun p => !(p.1 == lbl))⟩

/-- Modelled from the spec: the per-sample enrollment loop of `Enroll`
(spec sections 6 and 7) is not among the sources under src/. Each uploaded image
is processed independently; `locOk` records whether face location succeeded on
each image; the pair is (added, skipped). -/
def enrollCounts (locOk : List Bool) : Nat × Nat :=
  ((locOk.filter (fun b => b)).length, (locOk.filter (fun b => !b)).length)

/- ### Claim C7: api helpers surface hard failures -/

/-- C7: each of apiGet, apiPost, apiMultipart and apiDelete fails with the
response body text as the error message for every response with ok = false, and
resolves with the parsed JSON body for every response with ok = true. -/
theorem c7_api_failure_surfacing {T : Type} (res : Response T) :
    (res.ok = false →
      apiGet res = Except.error res.text ∧ apiPost res = Except.error res.text ∧
      apiMultipart res = Except.error res.text ∧ apiDelete res = Except.error res.text) ∧
    (res.ok = true →
      apiGet res = Except.ok res.body ∧ apiPost res = Except.ok res.body ∧
      apiMultipart res = Except.ok res.body ∧ apiDelete res = Except.ok res.body) := by
  constructor <;> intro h <;>
    simp [apiGet, apiPost, apiMultipart, apiDelete, h]

/-- Witness for C7 at two concrete responses. -/
theorem c7_api_failure_surfacing_witness :
    apiGet (Response.mk false "storage unavailable" (0 : Nat)) =
      Except.error "storage unavailable" ∧
    apiGet (Response.mk true "" (7 : Nat)) = Except.ok 7 :=
  ⟨((c7_api_failure_surfacing (Response.mk false "storage unavailable" (0 : Nat))).1 rfl).1,
   ((c7_api_failure_surfacing (Response.mk true "" (7 : Nat))).2 rfl).1⟩

/- ### Claim C8: bbox overlay drawing -/

/-- C8: a rectangle is drawn exactly when the bbox field is non-null with exactly
4 elements, interpreted in the order x, y, w, h; the stroke color is amber for
the Unknown label and green otherwise. -/
theorem c8_bbox_overlay (r : WireResult) :
    ((overlayRect r).isSome = true ↔ ∃ x y w h : ℚ, r.bbox = some [x, y, w, h]) ∧
    (∀ x y w h : ℚ, r.bbox = some [x, y, w, h] → overlayRect r = some (x, y, w, h)) ∧
    (strokeColor r = "#f59e0b" ↔ r.label = "Unknown") ∧
    (r.label ≠ "Unknown" → strokeColor r = "#10b981") := by
  obtain ⟨lbl, conf, bb⟩ := r
  refine ⟨?_, ?_, ?_, ?_⟩
  · rcases bb with _ | ⟨_ | ⟨x, _ | ⟨y, _ | ⟨w, _ | ⟨h, _ | ⟨e, t⟩⟩⟩⟩⟩⟩ <;>
      simp [overlayRect]
  · rcases bb with _ | ⟨_ | ⟨x, _ | ⟨y, _ | ⟨w, _ | ⟨h, _ | ⟨e, t⟩⟩⟩⟩⟩⟩ <;>
      simp [overlayRect]
  · by_cases hl : lbl = "Unknown" <;> simp [strokeColor, hl]
  · intro hl
    simp only [strokeColor]
    rw [if_neg]
    simp [hl]

/-- Witness for C8: a recognized result with a 4-element bbox. -/
theorem c8_bbox_overlay_witness :
    overlayRect (WireResult.mk "Juan" (some 42) (some [10, 20, 30, 40])) =
      some (10, 20, 30, 40) ∧
    strokeColor (WireResult.mk "Juan" (some 42) (some [10, 20, 30, 40])) = "#10b981" :=
  ⟨(c8_bbox_overlay (WireResult.mk "Juan" (some 42) (some [10, 20, 30, 40]))).2.1
      10 20 30 40 rfl,
   (c8_bbox_overlay (WireResult.mk "Juan" (some 42) (some [10, 20, 30, 40]))).2.2.2
      (by simp)⟩

/- ### Claim C9: at most one in-flight inference request -/

/-- The loop invariant: the outstanding-request count tracks the in-flight flag. -/
theorem loopStep_inv (s : LoopState) (e : LoopEvent)
    (h : s.outstanding = if s.inFlight then 1 else 0) :
    (loopStep s e).outstanding = if (loopStep s e).inFlight then 1 else 0 := by
  obtain ⟨fl, o⟩ := s
  cases e <;> cases fl <;> simp [loopStep] at h ⊢ <;> omega

/-- The invariant holds of every reachable loop state. -/
theorem loopRun_inv (evs : List LoopEvent) :
    (loopRun evs).outstanding = if (loopRun evs).inFlight then 1 else 0 := by
  suffices h : ∀ s : LoopState, s.outstanding = (if s.inFlight then 1 else 0) →
      (evs.foldl loopStep s).outstanding = if (evs.foldl loopStep s).inFlight then 1 else 0 by
    exact h loopInit rfl
  induction evs with
  | nil => exact fun s hs => hs
  | cons e rest ih => exact fun s hs => ih (loopStep s e) (loopStep_inv s e hs)

/-- C9: in every reachable state of the webcam capture loop at most one request
is outstanding; while one is in flight a firing tick sends nothing and leaves
the state unchanged, and either completion clears the in-flight flag (after
which a tick may send again). -/
theorem c9_single_inflight_request (evs : List LoopEvent) :
    (loopRun evs).outstanding ≤ 1 ∧
    ((loopRun evs).inFlight = true →
      tickSends (loopRun evs) = false ∧
      loopStep (loopRun evs) LoopEvent.tickEv = loopRun evs ∧
      (loopStep (loopRun evs) LoopEvent.succEv).inFlight = false ∧
      (loopStep (loopRun evs) LoopEvent.failEv).inFlight = false ∧
      tickSends (loopStep (loopRun evs) LoopEvent.succEv) = true) := by
  have hinv := loopRun_inv evs
  constructor
  · rw [hinv]; split <;> omega
  · intro hf
    refine ⟨?_, ?_, ?_, ?_, ?_⟩ <;> simp [tickSends, loopStep, hf]

/-- Witness for C9: after one tick a request is in flight and a second tick is
suppressed. -/
theorem c9_single_inflight_request_witness :
    (loopRun [LoopEvent.tickEv]).outstanding ≤ 1 ∧
    tickSends (loopRun [LoopEvent.tickEv]) = false :=
  ⟨(c9_single_inflight_request [LoopEvent.tickEv]).1,
   ((c9_single_inflight_request [LoopEvent.tickEv]).2 rfl).1⟩

/- ### Helper lemmas on the JS primitives -/

/-- Digit characters are digits. -/
theorem digitChar_isDigit (n : Nat) : (digitChar n).isDigit = true := by
  unfold digitChar
  have hr : n % 10 < 10 := Nat.mod_lt _ (by norm_num)
  set r := n % 10 with hrdef
  interval_cases r <;> decide

/-- Every character of the decimal rendering is a digit. -/
theorem natCharsAux_isDigit :
    ∀ (fuel n : Nat), ∀ c ∈ natCharsAux fuel n, c.isDigit = true := by
  intro fuel
  induction fuel with
  | zero => intro n c hc; cases hc
  | succ f ih =>
    intro n c hc
    unfold natCharsAux at hc
    by_cases hn : n < 10
    · rw [if_pos hn] at hc
      rw [List.mem_singleton] at hc
      subst hc
      exact digitChar_isDigit n
    · rw [if_neg hn] at hc
      rcases List.mem_append.mp hc with hc | hc
      · exact ih (n / 10) c hc
      · rw [List.mem_singleton] at hc
        subst hc
        exact digitChar_isDigit (n % 10)

/-- Corollary for `natChars`. -/
theorem mem_natChars_isDigit (n : Nat) {c : Char} (hc : c ∈ natChars n) :
    c.isDigit = true :=
  natCharsAux_isDigit (n + 1) n c hc

/-- The decimal rendering is never empty (with positive fuel). -/
theorem natCharsAux_ne_nil (fuel n : Nat) (hf : 0 < fuel) :
    natCharsAux fuel n ≠ [] := by
  cases fuel with
  | zero => cases hf
  | succ f =>
    unfold natCharsAux
    by_cases hn : n < 10
    · rw [if_pos hn]; simp
    · rw [if_neg hn]; simp

/-- Corollary for `natChars`. -/
theorem natChars_ne_nil (n : Nat) : natChars n ≠ [] :=
  natCharsAux_ne_nil (n + 1) n (Nat.succ_pos n)

/-- `toFixed(1)` output always carries a decimal point, so it is never the
dash placeholder. -/
theorem jsToFixed1_ne_dash (q : ℚ) : jsToFixed1 q ≠ "-" := by
  intro h
  have hdot : '.' ∈ (jsToFixed1 q).data := by
    simp only [jsToFixed1, String.data_append]
    simp
  rw [h] at hdot
  exact absurd hdot (by decide)

/- ### Helper lemmas on JS trim -/

/-- The head surviving `dropWhile isJsSpace` is not whitespace. -/
theorem head?_dropWhile_isJsSpace (l : List Char) :
    ∀ c, (l.dropWhile isJsSpace).head? = some c → isJsSpace c = false := by
  induction l with
  | nil => intro c hc; cases hc
  | cons a t ih =>
    intro c hc
    by_cases ha : isJsSpace a = true
    · rw [List.dropWhile_cons_of_pos ha] at hc
      exact ih c hc
    · rw [List.dropWhile_cons_of_neg ha] at hc
      cases hc
      exact Bool.eq_false_iff.mpr ha

/-- `trimTrailing` keeps the head character when its result is non-empty. -/
theorem trimTrailing_head? (a : Char) (t : List Char) :
    ∀ c, (trimTrailing (a :: t)).head? = some c → c = a := by
  intro c hc
  unfold trimTrailing at hc
  cases htt : trimTrailing t with
  | nil =>
    rw [htt] at hc
    by_cases ha : isJsSpace a = true
    · rw [if_pos ha] at hc; cases hc
    · rw [if_neg ha] at hc; cases hc; rfl
  | cons b u =>
    rw [htt] at hc
    cases hc; rfl

/-- A list starting with a non-whitespace character survives `trimTrailing`. -/
theorem trimTrailing_ne_nil (a : Char) (t : List Char) (ha : isJsSpace a = false) :
    trimTrailing (a :: t) ≠ [] := by
  unfold trimTrailing
  cases htt : trimTrailing t with
  | nil => rw [ha]; simp
  | cons b u => simp

/-- The head of a non-empty trim result is not whitespace. -/
theorem trimChars_head?_not_space (l : List Char) :
    ∀ c, (trimChars l).head? = some c → isJsSpace c = false := by
  intro c hc
  unfold trimChars at hc
  cases hd : l.dropWhile isJsSpace with
  | nil => rw [hd] at hc; cases hc
  | cons a t =>
    rw [hd] at hc
    have hca : c = a := trimTrailing_head? a t c hc
    subst hca
    exact head?_dropWhile_isJsSpace l c (by rw [hd]; rfl)

/-- Truncating a trimmed string still trims to something non-empty: the point of
`sanitizeText`: its non-empty outputs denote labels that stay non-empty after a
further trim. -/
theorem trimChars_take_ne_nil (l : List Char) (k : Nat)
    (h : (trimChars l).take k ≠ []) : trimChars ((trimChars l).take k) ≠ [] := by
  cases htc : trimChars l with
  | nil => rw [htc] at h; simp at h
  | cons c rest =>
    have hc : isJsSpace c = false :=
      trimChars_head?_not_space l c (by rw [htc]; rfl)
    cases k with
    | zero => rw [htc] at h; simp at h
    | succ k =>
      rw [List.take_succ_cons]
      unfold trimChars
      rw [List.dropWhile_cons_of_neg (by rw [hc]; simp)]
      exact trimTrailing_ne_nil c _ hc

/- ### Claim C3: score percentage at the presentation boundary -/

/-- C3: the displayed match-score percentage equals round(100 * clamp(score, 0, 1)),
is an integer in [0, 100] for every numeric score, and is absent when the score is
not a number; the confidence field itself reaches the distance text unconverted. -/
theorem c3_score_percentage (q : ℚ) :
    scorePct (some q) = some (jsRound (100 * clampScore q)) ∧
    (∀ p : Int, scorePct (some q) = some p → 0 ≤ p ∧ p ≤ 100) ∧
    scorePct none = none ∧
    (∀ r : CardResult, r.score = none →
      distanceLine r = "Distance: " ++ distanceText r.confidence) := by
  refine ⟨by rw [mul_comm]; rfl, ?_, rfl, ?_⟩
  · intro p hp
    have hp' : jsRound (clampScore q * 100) = p := by
      simpa [scorePct] using hp
    have h0 : 0 ≤ clampScore q := le_max_left _ _
    have h1 : clampScore q ≤ 1 := max_le (by norm_num) (min_le_left _ _)
    have hlow : (0 : ℚ) ≤ clampScore q * 100 + 1 / 2 := by linarith
    have hhigh : clampScore q * 100 + 1 / 2 < 101 := by linarith
    constructor
    · rw [← hp']
      exact Int.le_floor.mpr (by exact_mod_cast hlow)
    · rw [← hp']
      unfold jsRound
      have := Int.floor_lt.mpr (show clampScore q * 100 + 1 / 2 < ((101 : Int) : ℚ) by
        exact_mod_cast hhigh)
      omega
  · intro r hr
    simp [distanceLine, hr, scorePct]

/-- Witness for C3 at score 0.37: the percentage is 37, inside [0, 100]. -/
theorem c3_score_percentage_witness :
    scorePct (some (37 / 100)) = some 37 ∧ 0 ≤ (37 : Int) ∧ (37 : Int) ≤ 100 := by
  have heq : scorePct (some ((37 : ℚ) / 100)) = some 37 := by
    have h1 : clampScore ((37 : ℚ) / 100) = 37 / 100 := by
      unfold clampScore
      rw [min_eq_right (by norm_num), max_eq_right (by norm_num)]
    simp only [scorePct, jsRound, h1]
    norm_num
  exact ⟨heq, (c3_score_percentage (37 / 100)).2.1 37 heq⟩

/- ### Claim C2: no face found is a normal null result -/

/-- C2: when no face is located, Infer returns label Unknown with confidence null
and bbox null (a value, not an error), and the client renders the distance as the
dash exactly when confidence is null. -/
theorem c2_no_face_null_result (threshold : ℚ) (resolve : Nat → Option String)
    (meta : String → Option MetadataRecord) (classify : List ℚ → Nat × ℚ) :
    infer threshold resolve meta none classify =
      InferOutcome.mk "Unknown" none none none ∧
    distanceText none = "-" ∧
    ∀ q : ℚ, distanceText (some q) ≠ "-" := by
  refine ⟨rfl, rfl, fun q => ?_⟩
  simpa [distanceText] using jsToFixed1_ne_dash q

/-- Witness for C2 on a concrete pipeline and a concrete non-null distance. -/
theorem c2_no_face_null_result_witness :
    infer 60 (fun _ => none) (fun _ => none) none (fun _ => (0, 0)) =
      InferOutcome.mk "Unknown" none none none ∧
    distanceText (some 12) ≠ "-" :=
  ⟨(c2_no_face_null_result 60 (fun _ => none) (fun _ => none) (fun _ => (0, 0))).1,
   (c2_no_face_null_result 60 (fun _ => none) (fun _ => none) (fun _ => (0, 0))).2.2 12⟩

/- ### Claim C1: threshold acceptance with lower-is-better distance -/

/-- C1: when a face is found and the classifier id resolves, distance at or below
the threshold yields the recognized label with its metadata attached, distance
above the threshold yields Unknown with the raw distance still in the confidence
field; and the result card renders the distance line identically for Unknown and
recognized results whenever confidence (and score) agree. -/
theorem c1_threshold_acceptance (threshold : ℚ) (resolve : Nat → Option String)
    (meta : String → Option MetadataRecord) (bb : List ℚ)
    (classify : List ℚ → Nat × ℚ) (lbl : String)
    (hres : resolve (classify bb).1 = some lbl) :
    ((classify bb).2 ≤ threshold →
      infer threshold resolve meta (some bb) classify =
        InferOutcome.mk lbl (some (classify bb).2) (some bb) (meta lbl)) ∧
    (threshold < (classify bb).2 →
      infer threshold resolve meta (some bb) classify =
        InferOutcome.mk "Unknown" (some (classify bb).2) (some bb) none) ∧
    (∀ ru rr : CardResult, ru.confidence = rr.confidence → ru.score = rr.score →
      distanceLine ru = distanceLine rr) := by
  refine ⟨fun hle => ?_, fun hgt => ?_, fun ru rr hc hs => ?_⟩
  · simp [infer, hres, hle]
  · simp [infer, hres, not_le.mpr hgt]
  · simp [distanceLine, hc, hs]

/-- Witness for C1: a concrete registry and classifier, once below and once above
the threshold. -/
theorem c1_threshold_acceptance_witness :
    infer 60 (fun i => if i = 0 then some "Juan" else none)
        (fun _ => some (MetadataRecord.mk (some "Most Wanted") none none none none none))
        (some [1, 2, 3, 4]) (fun _ => (0, 50)) =
      InferOutcome.mk "Juan" (some 50) (some [1, 2, 3, 4])
        (some (MetadataRecord.mk (some "Most Wanted") none none none none none)) ∧
    infer 60 (fun i => if i = 0 then some "Juan" else none)
        (fun _ => some (MetadataRecord.mk (some "Most Wanted") none none none none none))
        (some [1, 2, 3, 4]) (fun _ => (0, 70)) =
      InferOutcome.mk "Unknown" (some 70) (some [1, 2, 3, 4]) none :=
  ⟨(c1_threshold_acceptance 60 (fun i => if i = 0 then some "Juan" else none)
      (fun _ => some (MetadataRecord.mk (some "Most Wanted") none none none none none))
      [1, 2, 3, 4] (fun _ => (0, 50)) "Juan" rfl).1 (by norm_num),
   ((c1_threshold_acceptance 60 (fun i => if i = 0 then some "Juan" else none)
      (fun _ => some (MetadataRecord.mk (some "Most Wanted") none none none none none))
      [1, 2, 3, 4] (fun _ => (0, 70)) "Juan" rfl).2.1 (by norm_num))⟩

/- ### Inversion of a successful uploadAndTrain submission -/

/-- A submission only happens after every validation passed, and the posted
fields are exactly the ones built at lines 94-102 of train/page.tsx. -/
theorem uploadAndTrain_submitted_inv (f : TrainForm) (fs : List (String × FormVal))
    (h : uploadAndTrain f = UploadOutcome.submitted fs) :
    ∃ q : ℚ, f.age = some q ∧ isPositiveInt q = true ∧
      sanitizeText f.label MAX_TEXT ≠ "" ∧
      fs = [("label", FormVal.fstr (sanitizeText f.label MAX_TEXT)),
            ("title", FormVal.fstr (sanitizeText f.title MAX_TEXT)),
            ("case", FormVal.fstr (sanitizeText f.caseInfo MAX_TEXT)),
            ("sex", FormVal.fstr (jsTrim f.sex)),
            ("age", FormVal.fnum (max 1 (min (MAX_AGE : ℚ) q))),
            ("address", FormVal.fstr (sanitizeText f.address MAX_TEXT))] ++
           (if jsTrim f.notes ≠ "" then [("notes", FormVal.fstr (jsTrim f.notes))]
            else []) := by
  cases hage : f.age with
  | none =>
    simp only [uploadAndTrain, hage] at h
    split_ifs at h <;> simp at h
  | some q =>
    simp only [uploadAndTrain, hage] at h
    split_ifs at h with h1 h2 h3 h4 h5 h6 h7 h8 <;> try simp at h
    · refine ⟨q, rfl, by simpa using h5, h1, ?_⟩
      rw [if_pos h8, ← h]
      rfl
    · refine ⟨q, rfl, by simpa using h5, h1, ?_⟩
      rw [if_neg h8, ← h, List.append_nil]

/- ### Claim C5: submitted labels are trimmed, non-empty, at most 25 chars -/

/-- C5: sanitizeText trims and truncates to the limit; the form posts the
sanitized label, which is non-empty (also after a further trim) and at most 25
characters; an empty sanitized label is rejected with an error and nothing is
posted; the quick-add path posts the same sanitized label. -/
theorem c5_label_sanitization :
    (∀ (s : String) (limit : Nat),
      (sanitizeText s limit).data = (trimChars s.data).take limit ∧
      (sanitizeText s limit).length ≤ limit) ∧
    (∀ f : TrainForm, sanitizeText f.label MAX_TEXT = "" →
      uploadAndTrain f = UploadOutcome.rejected "Label is required.") ∧
    (∀ (f : TrainForm) (fs : List (String × FormVal)),
      uploadAndTrain f = UploadOutcome.submitted fs →
      ("label", FormVal.fstr (sanitizeText f.label MAX_TEXT)) ∈ fs ∧
      sanitizeText f.label MAX_TEXT ≠ "" ∧
      (sanitizeText f.label MAX_TEXT).length ≤ 25 ∧
      trimChars (sanitizeText f.label MAX_TEXT).data ≠ []) ∧
    (∀ (label : String) (files : Nat) (v : String),
      quickAddLabelField label files = some v →
      v = sanitizeText label MAX_TEXT ∧ v ≠ "" ∧ v.length ≤ 25) := by
  have hlen : ∀ (s : String) (limit : Nat), (sanitizeText s limit).length ≤ limit := by
    intro s limit
    show ((trimChars s.data).take limit).length ≤ limit
    simp [List.length_take]
  have hempty : ∀ (s : String) (limit : Nat),
      sanitizeText s limit = "" ↔ (trimChars s.data).take limit = [] := by
    intro s limit
    unfold sanitizeText
    constructor
    · intro h
      have := congrArg String.data h
      simpa using this
    · intro h
      rw [h]
  refine ⟨fun s limit => ⟨rfl, hlen s limit⟩, ?_, ?_, ?_⟩
  · intro f h
    simp only [uploadAndTrain]
    rw [if_pos h]
  · intro f fs h
    obtain ⟨q, _, _, hlbl, hfs⟩ := uploadAndTrain_submitted_inv f fs h
    refine ⟨?_, hlbl, hlen f.label MAX_TEXT, ?_⟩
    · rw [hfs]
      simp
    · apply trimChars_take_ne_nil
      intro hnil
      exact hlbl ((hempty f.label MAX_TEXT).mpr hnil)
  · intro label files v h
    unfold quickAddLabelField at h
    split_ifs at h with hg
    cases h
    push_neg at hg
    obtain ⟨htrim, _⟩ := hg
    refine ⟨rfl, ?_, hlen label MAX_TEXT⟩
    intro hv
    have hnil : (trimChars label.data).take MAX_TEXT = [] :=
      (hempty label MAX_TEXT).mp hv
    have htc : trimChars label.data = [] := by
      rcases List.take_eq_nil_iff.mp hnil with h25 | h0
      · cases h25
      · exact h0
    exact htrim (by unfold jsTrim; rw [htc])

/-- Witness for C5: a concrete valid form whose posted label is the sanitized
one, plus a concrete rejected form. -/
theorem c5_label_sanitization_witness :
    ("label", FormVal.fstr (sanitizeText "  Juan_Dela_Cruz  " MAX_TEXT)) ∈
      [("label", FormVal.fstr (sanitizeText "  Juan_Dela_Cruz  " MAX_TEXT)),
       ("title", FormVal.fstr (sanitizeText "Most Wanted" MAX_TEXT)),
       ("case", FormVal.fstr (sanitizeText "Robbery" MAX_TEXT)),
       ("sex", FormVal.fstr (jsTrim "Male")),
       ("age", FormVal.fnum (max 1 (min (MAX_AGE : ℚ) 34))),
       ("address", FormVal.fstr (sanitizeText "Manila" MAX_TEXT))] ∧
    uploadAndTrain (TrainForm.mk "   " "Most Wanted" "Robbery" "Male" (some 34) "Manila" "" 3) =
      UploadOutcome.rejected "Label is required." := by
  constructor
  · exact ((c5_label_sanitization.2.2.1
      (TrainForm.mk "  Juan_Dela_Cruz  " "Most Wanted" "Robbery" "Male" (some 34) "Manila" "" 3)
      _ (by decide)).1)
  · exact c5_label_sanitization.2.1
      (TrainForm.mk "   " "Most Wanted" "Robbery" "Male" (some 34) "Manila" "" 3) (by decide)

/- ### Claim C10: age normalization and clamping -/

/-- C10: normalizeAgeInput yields the empty value exactly when the input has no
digit, and otherwise an integer in [1, 105]; a submitted enrollment request
always carries an age equal to the clamp of the validated age into [1, 105],
an integral rational in that range. -/
theorem c10_age_normalization :
    (∀ raw : String,
      (normalizeAgeInput raw = none ↔ raw.data.filter Char.isDigit = []) ∧
      ∀ n, normalizeAgeInput raw = some n → 1 ≤ n ∧ n ≤ 105) ∧
    (∀ (f : TrainForm) (fs : List (String × FormVal)),
      uploadAndTrain f = UploadOutcome.submitted fs →
      ∃ q : ℚ, f.age = some q ∧
        ("age", FormVal.fnum (max 1 (min (105 : ℚ) q))) ∈ fs ∧
        (max 1 (min (105 : ℚ) q)).den = 1 ∧
        1 ≤ max 1 (min (105 : ℚ) q) ∧ max 1 (min (105 : ℚ) q) ≤ 105) := by
  constructor
  · intro raw
    constructor
    · unfold normalizeAgeInput
      by_cases hraw : raw = ""
      · rw [if_pos hraw]
        subst hraw
        simp
      · rw [if_neg hraw]
        by_cases hdig : (raw.data.filter Char.isDigit).take 3 = []
        · rw [if_pos hdig]
          simp only [true_iff]
          rcases List.take_eq_nil_iff.mp hdig with h3 | h0
          · cases h3
          · exact h0
        · rw [if_neg hdig]
          simp only [false_iff, reduceCtorEq]
          intro hfil
          exact hdig (by rw [hfil]; rfl)
    · intro n hn
      simp only [normalizeAgeInput] at hn
      split_ifs at hn
      all_goals cases hn
      all_goals refine ⟨le_max_left _ _, max_le (by norm_num) ?_⟩
      all_goals exact le_trans (min_le_left _ _) (by norm_num [MAX_AGE])
  · intro f fs h
    obtain ⟨q, hage, hpos, _, hfs⟩ := uploadAndTrain_submitted_inv f fs h
    have hden : q.den = 1 := by
      simp [isPositiveInt] at hpos
      exact hpos.2
    have hclamp : (max 1 (min (105 : ℚ) q)).den = 1 := by
      rcases max_choice (1 : ℚ) (min (105 : ℚ) q) with hm | hm <;> rw [hm]
      · exact Rat.den_one
      · rcases min_choice (105 : ℚ) q with hm2 | hm2 <;> rw [hm2]
        · exact Rat.den_ofNat 105
        · exact hden
    refine ⟨q, hage, ?_, hclamp, le_max_left _ _, max_le (by norm_num) (min_le_left _ _)⟩
    rw [hfs]
    simp [MAX_AGE]

/-- Witness for C10: input 345 clamps to 105; a concrete valid form posts the
clamped integral age. -/
theorem c10_age_normalization_witness :
    (1 ≤ 105 ∧ 105 ≤ 105) ∧
    (max 1 (min (105 : ℚ) 34)).den = 1 ∧
    1 ≤ max 1 (min (105 : ℚ) 34) ∧ max 1 (min (105 : ℚ) 34) ≤ 105 := by
  refine ⟨c10_age_normalization.1 "345" |>.2 105 (by decide), ?_⟩
  obtain ⟨q, hage, _, hden, h1, h2⟩ := c10_age_normalization.2
    (TrainForm.mk "Juan" "Most Wanted" "Robbery" "Male" (some 34) "Manila" "" 3)
    [("label", FormVal.fstr (sanitizeText "Juan" MAX_TEXT)),
     ("title", FormVal.fstr (sanitizeText "Most Wanted" MAX_TEXT)),
     ("case", FormVal.fstr (sanitizeText "Robbery" MAX_TEXT)),
     ("sex", FormVal.fstr (jsTrim "Male")),
     ("age", FormVal.fnum (max 1 (min (MAX_AGE : ℚ) 34))),
     ("address", FormVal.fstr (sanitizeText "Manila" MAX_TEXT))] (by decide)
  have hq : q = 34 := by
    have := hage
    simp at this
    exact this.symm
  rw [hq] at hden h1 h2
  exact ⟨hden, h1, h2⟩

/- ### Claim C6: per-sample enrollment errors and the success message -/

/-- The added and skipped counts partition the uploaded images. -/
theorem enrollCounts_partition (locOk : List Bool) :
    (enrollCounts locOk).1 + (enrollCounts locOk).2 = locOk.length := by
  induction locOk with
  | nil => rfl
  | cons b t ih =>
    cases b <;> simp [enrollCounts, List.filter] at ih ⊢ <;> omega

/-- The data of the success message, split at its literal pieces. -/
theorem successMsg_data (a s n : Nat) :
    (successMsg a s n).data =
      ("Successfully added " : String).data ++ natChars a ++
      (" training image(s)" : String).data ++
      (if s > 0 then (", skipped " : String).data ++ natChars s else []) ++
      (". Total images: " : String).data ++ natChars n := by
  by_cases hs : s > 0 <;>
    simp [successMsg, hs, natStr, String.data_append, List.append_assoc]

/-- C6: added + skipped = number of uploaded images, skipped counts exactly the
images whose face location failed, and the success message reports the added
count and mentions the skipped count exactly when skipped > 0. -/
theorem c6_per_sample_enrollment (locOk : List Bool) (a s n : Nat) :
    ((enrollCounts locOk).1 + (enrollCounts locOk).2 = locOk.length ∧
     (enrollCounts locOk).2 = (locOk.filter (fun b => !b)).length) ∧
    (∃ rest : List Char, (successMsg a s n).data =
      ("Successfully added " : String).data ++ natChars a ++ rest) ∧
    (0 < s → ∃ u w : List Char,
      (successMsg a s n).data =
        u ++ ((", skipped " : String).data ++ natChars s) ++ w) ∧
    (s = 0 → ¬ ∃ u w : List Char,
      (successMsg a s n).data =
        u ++ ((", skipped " : String).data ++ natChars s) ++ w) := by
  refine ⟨⟨enrollCounts_partition locOk, rfl⟩, ?_, ?_, ?_⟩
  · exact ⟨_, by rw [successMsg_data a s n, List.append_assoc, List.append_assoc,
      List.append_assoc]⟩
  · intro hs
    refine ⟨("Successfully added " : String).data ++ natChars a ++
      (" training image(s)" : String).data,
      (". Total images: " : String).data ++ natChars n, ?_⟩
    rw [successMsg_data a s n, if_pos hs]
    simp [List.append_assoc]
  · rintro rfl ⟨u, w, heq⟩
    have hk : 'k' ∈ (successMsg a 0 n).data := by
      rw [heq]
      refine List.mem_append.mpr (Or.inl (List.mem_append.mpr (Or.inr ?_)))
      exact List.mem_append.mpr (Or.inl (by decide))
    rw [successMsg_data a 0 n] at hk
    simp only [gt_iff_lt, lt_self_iff_false, if_false, List.append_nil,
      List.mem_append] at hk
    rcases hk with ((((hk | hk) | hk) | hk) | hk)
    · exact absurd hk (by decide)
    · exact absurd (mem_natChars_isDigit a hk) (by decide)
    · exact absurd hk (by decide)
    · exact absurd hk (by decide)
    · exact absurd (mem_natChars_isDigit n hk) (by decide)

/-- Witness for C6: two good images and one skipped, message mentions the skip. -/
theorem c6_per_sample_enrollment_witness :
    ((enrollCounts [true, true, false]).1 + (enrollCounts [true, true, false]).2 = 3 ∧
     (enrollCounts [true, true, false]).2 =
       ([true, true, false].filter (fun b => !b)).length) ∧
    ∃ u w : List Char,
      (successMsg 2 1 3).data = u ++ ((", skipped " : String).data ++ natChars 1) ++ w :=
  ⟨(c6_per_sample_enrollment [true, true, false] 2 1 3).1,
   (c6_per_sample_enrollment [true, true, false] 2 1 3).2.2.1 (by norm_num)⟩

/- ### Claim C4: dense id allocation in the Label Registry -/

/-- Counting values at least n + 1 never exceeds counting values at least n. -/
theorem countP_ge_mono (n : Nat) (l : List Nat) :
    l.countP (fun m => decide (n + 1 ≤ m)) ≤ l.countP (fun m => decide (n ≤ m)) := by
  induction l with
  | nil => simp
  | cons a t ih =>
    simp only [List.countP_cons]
    by_cases h1 : n + 1 ≤ a
    · have h2 : n ≤ a := by omega
      simp only [h1, h2, decide_True]
      omega
    · by_cases h2 : n ≤ a <;> simp [h1, h2] <;> omega

/-- If n occurs in the list, strictly fewer values are at least n + 1 than at
least n. -/
theorem countP_ge_strict (n : Nat) (l : List Nat) (h : n ∈ l) :
    l.countP (fun m => decide (n + 1 ≤ m)) < l.countP (fun m => decide (n ≤ m)) := by
  induction l with
  | nil => cases h
  | cons a t ih =>
    simp only [List.countP_cons]
    rcases List.mem_cons.mp h with rfl | hmem
    · have h1 : ¬(n + 1 ≤ n) := by omega
      have h2 : n ≤ n := le_refl n
      simp [h1, h2]
      have := countP_ge_mono n t
      omega
    · have hlt := ih hmem
      by_cases h1 : n + 1 ≤ a
      · have h2 : n ≤ a := by omega
        simp only [h1, h2, decide_True]
        omega
      · by_cases h2 : n ≤ a <;> simp [h1, h2] <;> omega

/-- With enough fuel, the upward scan lands outside the used list. -/
theorem freeScan_not_mem :
    ∀ (fuel n : Nat) (used : List Nat),
      used.countP (fun m => decide (n ≤ m)) < fuel → freeScan fuel n used ∉ used := by
  intro fuel
  induction fuel with
  | zero => intro n used h; exact absurd h (Nat.not_lt_zero _)
  | succ f ih =>
    intro n used h
    unfold freeScan
    by_cases hmem : n ∈ used
    · rw [if_pos hmem]
      apply ih
      have := countP_ge_strict n used hmem
      omega
    · rw [if_neg hmem]
      exact hmem

/-- Everything below the scan result (from the start point) is used. -/
theorem freeScan_min :
    ∀ (fuel n m : Nat) (used : List Nat),
      n ≤ m → m < freeScan fuel n used → m ∈ used := by
  intro fuel
  induction fuel with
  | zero =>
    intro n m used hnm hlt
    unfold freeScan at hlt
    omega
  | succ f ih =>
    intro n m used hnm hlt
    unfold freeScan at hlt
    by_cases hmem : n ∈ used
    · rw [if_pos hmem] at hlt
      rcases Nat.eq_or_lt_of_le hnm with rfl | hlt2
      · exact hmem
      · exact ih (n + 1) m used hlt2 hlt
    · rw [if_neg hmem] at hlt
      omega

/-- The allocator returns a value outside the used ids. -/
theorem smallestUnused_not_mem (used : List Nat) : smallestUnused used ∉ used := by
  apply freeScan_not_mem
  have hall : used.countP (fun m => decide (0 ≤ m)) = used.length :=
    List.countP_eq_length.mpr (fun a _ => by simp)
  omega

/-- The allocator returns the smallest unused value. -/
theorem smallestUnused_min (used : List Nat) (m : Nat) (h : m < smallestUnused used) :
    m ∈ used :=
  freeScan_min (used.length + 1) 0 m used (Nat.zero_le m) h

/-- A registered label's id is among the active ids. -/
theorem lookup_mem_idsOf (r : Registry) (lbl : String) (i : Nat)
    (h : r.lookup lbl = some i) : i ∈ r.idsOf := by
  unfold Registry.lookup at h
  rcases Option.map_eq_some'.mp h with ⟨p, hfind, hsnd⟩
  have hmem : p ∈ r.pairs := List.mem_of_find?_eq_some hfind
  exact hsnd ▸ List.mem_map.mpr ⟨p, hmem, rfl⟩

/-- C4: enrolling a new label allocates the smallest id not bound to any active
label - in particular never an id still bound to one - while re-enrolling never
reallocates; concretely, deleting label Old frees id 0 for a later new label,
but with Old still registered the same new label gets the fresh id 2. -/
theorem c4_registry_id_allocation (r : Registry) (lbl : String)
    (h : r.lookup lbl = none) :
    ((r.ensure lbl).1 ∉ r.idsOf ∧
     (∀ m, m < (r.ensure lbl).1 → m ∈ r.idsOf) ∧
     (∀ (other : String) (i : Nat), r.lookup other = some i → (r.ensure lbl).1 ≠ i)) ∧
    (((Registry.mk [("Old", 0), ("Keep", 1)]).remove "Old").ensure "New").1 = 0 ∧
    ((Registry.mk [("Old", 0), ("Keep", 1)]).ensure "New").1 = 2 := by
  have hfst : (r.ensure lbl).1 = smallestUnused r.idsOf := by
    unfold Registry.ensure
    rw [h]
  refine ⟨⟨?_, ?_, ?_⟩, by decide, by decide⟩
  · rw [hfst]; exact smallestUnused_not_mem r.idsOf
  · intro m hm
    rw [hfst] at hm
    exact smallestUnused_min r.idsOf m hm
  · intro other i hother hcontra
    have hi : i ∈ r.idsOf := lookup_mem_idsOf r other i hother
    rw [hfst] at hcontra
    exact smallestUnused_not_mem r.idsOf (hcontra ▸ hi)

/-- Witness for C4: a one-label registry hands the next label id 1, not the live
id 0. -/
theorem c4_registry_id_allocation_witness :
    ((Registry.mk [("A", 0)]).ensure "B").1 ∉ (Registry.mk [("A", 0)]).idsOf ∧
    (((Registry.mk [("Old", 0), ("Keep", 1)]).remove "Old").ensure "New").1 = 0 ∧
    ((Registry.mk [("Old", 0), ("Keep", 1)]).ensure "New").1 = 2 :=
  ⟨(c4_registry_id_allocation (Registry.mk [("A", 0)]) "B" rfl).1.1,
   (c4_registry_id_allocation (Registry.mk [("A", 0)]) "B" rfl).2⟩
